import Mathlib

/-!
# Verification of `service/musicbrainz/musicbrainz.go` (fatfingers23/piper)

Shallow embedding of the MusicBrainz metadata-hydration service:
the cache-fronted search (`SearchMusicBrainz`), the cache-key
generation (`generateCacheKey`, built on Go's `url.QueryEscape`),
the release selector (`GetBestRelease`) and the hydrator
(`HydrateTrack`).

Modelling conventions:
* Go strings compare byte-lexicographically; UTF-8 byte order agrees
  with code-point order, so Lean's `String` linear order (code-point
  lexicographic) models Go's `<` on strings faithfully.
* `len(s)` on a Go string counts bytes: modelled by `String.utf8ByteSize`.
* `time.Time` instants are modelled as `Nat`; `now.Before(t)` is `now < t`.
* The in-memory cache map is modelled as a function `String → Option cacheEntry`.
* Go runtime panics (out-of-range index, nil-pointer dereference) are
  modelled as distinguished error values, since a panic aborts the call.
* Side effects of a call (did it call `limiter.Wait`, did it issue the
  HTTP request, which cache key and query string it used) are returned
  explicitly so that theorems can speak about them.
-/

namespace Piper

/-- Embeds the nested `Artist` struct of Go's `MusicBrainzArtistCredit`
(fields `ID`, `Name`, `SortName`). -/
structure MusicBrainzArtist where
  id : String
  name : String
  sortName : String
deriving DecidableEq, Repr

/-- Embeds Go `MusicBrainzArtistCredit` (`Artist`, `Joinphrase`, `Name`). -/
structure MusicBrainzArtistCredit where
  artist : MusicBrainzArtist
  joinphrase : String
  name : String
deriving DecidableEq, Repr

/-- Embeds Go `MusicBrainzRelease` (`ID`, `Title`, `Status`, `Date`,
`Country`, `Disambiguation`, `TrackCount`). -/
structure MusicBrainzRelease where
  id : String
  title : String
  status : String
  date : String
  country : String
  disambiguation : String
  trackCount : Nat
deriving DecidableEq, Repr

/-- Embeds Go `MusicBrainzRecording` (`ID`, `Title`, `Length` in ms,
`ISRCs`, `ArtistCredit`, `Releases`). -/
structure MusicBrainzRecording where
  id : String
  title : String
  length : Nat
  isrcs : List String
  artistCredit : List MusicBrainzArtistCredit
  releases : List MusicBrainzRelease
deriving DecidableEq, Repr

/-- Embeds Go `SearchParams` (`Track`, `Artist`, `Release`). -/
structure SearchParams where
  track : String
  artist : String
  release : String
deriving DecidableEq, Repr

/-- Embeds Go `cacheEntry` (`recordings`, `expiresAt`). -/
structure cacheEntry where
  recordings : List MusicBrainzRecording
  expiresAt : Nat
deriving DecidableEq, Repr

/-- Modelled from the spec: the caller's track record `models.Track`
(package `models` is not under `src/`); fields are exactly those read or
written by `HydrateTrack`: play identifiers, timestamps and progress are
passed through, and recording id, release id/title, ISRC, duration and
artist list are overwritten from the chosen candidate (spec §3
"EnrichedTrack"). -/
structure Artist where
  name : String
  id : String
  mbid : String
deriving DecidableEq, Repr

/-- Modelled from the spec: the caller's track record `models.Track`
(package `models` is not under `src/`), restricted to the fields
`HydrateTrack` reads or writes (spec §3 "EnrichedTrack": "the caller's
track record with recording id, release id/title, ISRC, duration, and
artist list overwritten from the chosen candidate; all fields not sourced
from the catalog (play identifiers, timestamps, progress) are passed
through unchanged"). -/
structure Track where
  hasStamped : Bool
  playID : String
  name : String
  url : String
  serviceBaseUrl : String
  album : String
  recordingMBID : String
  releaseMBID : String
  isrc : String
  timestamp : Nat
  progressMs : Nat
  durationMs : Int
  artist : List Artist
deriving DecidableEq, Repr

/-! ## Cache keys: Go's `url.QueryEscape` and `generateCacheKey` -/

/-- UTF-8 encoding of one code point, as the list of byte values: Go's
`[]byte(s)` views a string as its UTF-8 bytes. -/
def utf8EncodeChar (c : Char) : List Nat :=
  let n := c.toNat
  if n < 0x80 then [n]
  else if n < 0x800 then [0xC0 + n / 0x40, 0x80 + n % 0x40]
  else if n < 0x10000 then [0xE0 + n / 0x1000, 0x80 + n / 0x40 % 0x40, 0x80 + n % 0x40]
  else [0xF0 + n / 0x40000, 0x80 + n / 0x1000 % 0x40, 0x80 + n / 0x40 % 0x40, 0x80 + n % 0x40]

/-- The bytes Go's `url.QueryEscape` leaves unescaped: ASCII letters,
digits, and `-`, `_`, `.`, `~`. -/
def isUnreservedByte (b : Nat) : Bool :=
  (0x41 ≤ b && b ≤ 0x5A) || (0x61 ≤ b && b ≤ 0x7A) || (0x30 ≤ b && b ≤ 0x39) ||
    b == 0x2D || b == 0x5F || b == 0x2E || b == 0x7E

/-- Upper-case hexadecimal digit, as used by Go's `url.escape`. -/
def upperHexDigit (n : Nat) : Char :=
  if n < 10 then Char.ofNat (0x30 + n) else Char.ofNat (0x41 + (n - 10))

/-- How Go's `url.QueryEscape` renders one byte: space becomes `+`,
unreserved bytes stand for themselves, every other byte becomes `%XX`. -/
def escapeByte (b : Nat) : List Char :=
  if b == 0x20 then ['+']
  else if isUnreservedByte b then [Char.ofNat b]
  else ['%', upperHexDigit (b / 16), upperHexDigit (b % 16)]

/-- Embeds Go `url.QueryEscape` (package `net/url`): escape each byte of
the UTF-8 encoding of `s`. -/
def queryEscape (s : String) : String :=
  String.mk ((s.data.flatMap utf8EncodeChar).flatMap escapeByte)

/-- Embeds Go `generateCacheKey`:
`fmt.Sprintf("track=%s&artist=%s&release=%s", ...)` over the
query-escaped parameter fields. -/
def generateCacheKey (params : SearchParams) : String :=
  "track=" ++ queryEscape params.track ++ "&artist=" ++ queryEscape params.artist ++
    "&release=" ++ queryEscape params.release

/-! ## Release selector: `GetBestRelease` -/

/-- The comparison closure passed to `sort.SliceStable` inside
`GetBestRelease`: valid dates (byte length ≥ 4) first, then date, title
and id lexicographically.  `releaseLess a b` is Go's `less(i, j)` with
`a = releases[i]`, `b = releases[j]`. -/
def releaseLess (a b : MusicBrainzRelease) : Bool :=
  let dateA := a.date
  let dateB := b.date
  let validDateA := decide (4 ≤ dateA.utf8ByteSize)
  let validDateB := decide (4 ≤ dateB.utf8ByteSize)
  if validDateA && !validDateB then true
  else if !validDateA && validDateB then false
  else if dateA ≠ dateB then decide (dateA < dateB)
  else if a.title ≠ b.title then decide (a.title < b.title)
  else decide (a.id < b.id)

/-- `sort.SliceStable(releases, less)`: a stable sort with respect to the
strict comparison `releaseLess`; rendered as a stable merge sort with the
non-strict `le a b := !(releaseLess b a)`. -/
def sortReleases (releases : List MusicBrainzRelease) : List MusicBrainzRelease :=
  releases.mergeSort (fun a b => !(releaseLess b a))

/-- Embeds Go `GetBestRelease`.  The second component of the result is
the content of the caller's `releases` slice after the call:
`sort.SliceStable` reorders the slice in place, so for two or more
elements the caller's slice holds the sorted sequence afterwards. -/
def GetBestRelease :
    List MusicBrainzRelease → String → Option MusicBrainzRelease × List MusicBrainzRelease
  | [], _ => (none, [])
  | [r], _ => (some r, [r])
  | releases, trackTitle =>
    let sorted := sortReleases releases
    let best :=
      match sorted.find? (fun r =>
          (r.country == "XW" || r.country == "US") && !(r.title == trackTitle)) with
      | some r => some r
      | none =>
        match sorted.find? (fun r => !(r.title == trackTitle)) with
        | some r => some r
        | none => sorted.head?
    (best, sorted)

/-! ## Lookup orchestrator: `SearchMusicBrainz` -/

/-- The metadata cleaner collaborator (`s.cleaner`): two clean functions,
each returning the cleaned string and whether an error occurred
(Go's `(string, error)` pair, with the error abstracted to a flag). -/
structure MetadataCleaner where
  CleanRecording : String → String × Bool
  CleanArtist : String → String × Bool

/-- Outcome of the environment on the fetch path: whether
`limiter.Wait` fails, `http.NewRequestWithContext` fails,
`httpClient.Do` fails, or a response arrives with a status code and
(for status 200) a decode result. -/
inductive FetchOutcome
  | waitErr
  | newRequestErr
  | doErr
  | response (statusCode : Nat) (decoded : Option (List MusicBrainzRecording))
deriving DecidableEq, Repr

/-- The error branches of `SearchMusicBrainz`, one per `return nil, ...`
site in the Go function. -/
inductive SearchError
  | invalidParams
  | limiterWait
  | newRequest
  | doRequest
  | badStatus (statusCode : Nat)
  | decodeFail
deriving DecidableEq, Repr

/-- Everything observable about one `SearchMusicBrainz` call: the
returned value or error, the cache map after the call, whether
`limiter.Wait` was called, whether the HTTP request was issued, and the
cache key and query string the call computed (`none` when the code never
reached that computation). -/
structure SearchOutcome where
  result : Except SearchError (List MusicBrainzRecording)
  cache : String → Option cacheEntry
  limiterWaited : Bool
  httpRequested : Bool
  usedCacheKey : Option String
  usedQuery : Option String

/-- The query parts built at lines 142–151: one quoted clause per
non-empty field, in the order track, artist, release. -/
def queryParts (params : SearchParams) : List String :=
  (if params.track ≠ "" then ["recording:\"" ++ params.track ++ "\""] else []) ++
    (if params.artist ≠ "" then ["artist:\"" ++ params.artist ++ "\""] else []) ++
      (if params.release ≠ "" then ["release:\"" ++ params.release ++ "\""] else [])

/-- `strings.Join(queryParts, " AND ")`. -/
def buildQuery (params : SearchParams) : String :=
  String.intercalate " AND " (queryParts params)

/-- The fetch path of `SearchMusicBrainz` (lines 141–197): wait for the
rate limiter, create and execute the request, check the status, decode
the body, and on full success store the result under `cacheKey` with
`expiresAt = now + cacheTTL`. -/
def fetchAndCache (cache : String → Option cacheEntry) (cacheTTL : Nat)
    (cacheKey query : String) (now : Nat) : FetchOutcome → SearchOutcome
  | .waitErr => ⟨.error .limiterWait, cache, true, false, some cacheKey, some query⟩
  | .newRequestErr => ⟨.error .newRequest, cache, true, false, some cacheKey, some query⟩
  | .doErr => ⟨.error .doRequest, cache, true, true, some cacheKey, some query⟩
  | .response statusCode decoded =>
    if statusCode ≠ 200 then
      ⟨.error (.badStatus statusCode), cache, true, true, some cacheKey, some query⟩
    else
      match decoded with
      | none => ⟨.error .decodeFail, cache, true, true, some cacheKey, some query⟩
      | some recordings =>
        ⟨.ok recordings,
          fun k => if k = cacheKey then some ⟨recordings, now + cacheTTL⟩ else cache k,
          true, true, some cacheKey, some query⟩

/-- Lines 118–119: `params.Track` and `params.Artist` are replaced by
their cleaned values (the cleaner's error is discarded); `params.Release`
is not cleaned. -/
def cleanParams (cleaner : MetadataCleaner) (params : SearchParams) : SearchParams :=
  { params with
      track := (cleaner.CleanRecording params.track).1
      artist := (cleaner.CleanArtist params.artist).1 }

/-- Embeds Go `SearchMusicBrainz`.  `cache` is the service's
`searchCache` map, `cacheTTL` its TTL, `now` the value of `time.Now()`,
and `outcome` the behaviour of the rate limiter and HTTP round trip if
the fetch path is reached. -/
def SearchMusicBrainz (cleaner : MetadataCleaner) (cache : String → Option cacheEntry)
    (cacheTTL : Nat) (params : SearchParams) (now : Nat) (outcome : FetchOutcome) :
    SearchOutcome :=
  if params.track = "" ∧ params.artist = "" ∧ params.release = "" then
    ⟨.error .invalidParams, cache, false, false, none, none⟩
  else
    match cache (generateCacheKey (cleanParams cleaner params)) with
    | some entry =>
      if now < entry.expiresAt then
        ⟨.ok entry.recordings, cache, false, false,
          some (generateCacheKey (cleanParams cleaner params)), none⟩
      else
        fetchAndCache cache cacheTTL (generateCacheKey (cleanParams cleaner params))
          (buildQuery (cleanParams cleaner params)) now outcome
    | none =>
      fetchAndCache cache cacheTTL (generateCacheKey (cleanParams cleaner params))
        (buildQuery (cleanParams cleaner params)) now outcome

/-! ## Hydrator: `HydrateTrack` -/

/-- The ways `HydrateTrack` ends without an enriched track: a search
error propagated verbatim, the `no results found` error, or a Go runtime
panic (out-of-range index on `firstResult.ISRCs[0]`, nil-pointer
dereference on `firstResultAlbum`). -/
inductive HydrateError
  | search (e : SearchError)
  | noResults
  | panicIndexOutOfRange
  | panicNilDereference
deriving DecidableEq, Repr

/-- Embeds Go `HydrateTrack`.  Returns the result together with the
cache map after the call. -/
def HydrateTrack (cleaner : MetadataCleaner) (cache : String → Option cacheEntry)
    (cacheTTL : Nat) (now : Nat) (outcome : FetchOutcome) (track : Track) :
    Except HydrateError Track × (String → Option cacheEntry) :=
  let artistArray := track.artist.map (fun a => a.name)
  let params : SearchParams :=
    ⟨track.name, String.intercalate ", " artistArray, track.album⟩
  let s := SearchMusicBrainz cleaner cache cacheTTL params now outcome
  match s.result with
  | .error e => (.error (.search e), s.cache)
  | .ok res =>
    match res with
    | [] => (.error .noResults, s.cache)
    | firstResult :: _ =>
      let firstResultAlbum := (GetBestRelease firstResult.releases firstResult.title).1
      match firstResult.isrcs with
      | [] =>
        -- Go: `bestISRC := firstResult.ISRCs[0]` runs before the
        -- `len(firstResult.ISRCs) == 0` guard and panics on an empty slice,
        -- so the guard's fallback to `track.ISRC` is unreachable.
        (.error .panicIndexOutOfRange, s.cache)
      | bestISRC :: _ =>
        let artists : List Artist :=
          firstResult.artistCredit.map (fun a => ⟨a.name, a.artist.id, a.artist.id⟩)
        match firstResultAlbum with
        | none =>
          -- Go: `firstResultAlbum.Title` dereferences the nil pointer
          -- returned by `GetBestRelease` for an empty release list.
          (.error .panicNilDereference, s.cache)
        | some album =>
          (.ok
            { hasStamped := track.hasStamped
              playID := track.playID
              name := track.name
              url := track.url
              serviceBaseUrl := track.serviceBaseUrl
              album := album.title
              recordingMBID := firstResult.id
              releaseMBID := album.id
              isrc := bestISRC
              timestamp := track.timestamp
              progressMs := track.progressMs
              durationMs := Int.ofNat firstResult.length
              artist := artists }, s.cache)

/-! ## Shared concrete fixtures -/

/-- A cleaner that returns its input unchanged and reports no error. -/
def idCleaner : MetadataCleaner :=
  ⟨fun s => (s, false), fun s => (s, false)⟩

/-- The empty cache map. -/
def emptyCache : String → Option cacheEntry := fun _ => none

/-- A concrete input track. -/
def sampleTrack : Track :=
  ⟨false, "play-1", "Song", "http://x", "http://svc", "Album", "", "", "OLDISRC", 5, 7, 0, []⟩

/-- A concrete release. -/
def sampleRelease : MusicBrainzRelease :=
  ⟨"rel-1", "RelTitle", "Official", "2020", "US", "", 10⟩

/-- Whether a fetch outcome is a failure of the rate-limiter wait, the
request creation, the request execution, the status check (non-200), or
the body decode. -/
def FetchOutcome.isFailure : FetchOutcome → Bool
  | .waitErr => true
  | .newRequestErr => true
  | .doErr => true
  | .response statusCode decoded => statusCode ≠ 200 || decoded.isNone

/-- A cleaner that returns its input unchanged but always reports an
error. -/
def errCleaner : MetadataCleaner :=
  ⟨fun s => (s, true), fun s => (s, true)⟩

/-- A cache holding a single (long-expired) entry under the fingerprint
of the cleaned parameters `⟨"t", "a", "r"⟩`. -/
def expiredCache : String → Option cacheEntry :=
  fun k => if k = generateCacheKey ⟨"t", "a", "r"⟩ then some ⟨[], 1⟩ else none

/-- A cache holding one unexpired entry (expiry 100) under the
fingerprint of the cleaned parameters `⟨"t", "a", "r"⟩`. -/
def freshCache : String → Option cacheEntry :=
  fun k => if k = generateCacheKey ⟨"t", "a", "r"⟩ then some ⟨[], 100⟩ else none

/-- A cleaner (for both free-text fields) that collapses `"c "` to `"c"`
and reports no error. -/
def trimCleaner : MetadataCleaner :=
  ⟨fun s => (if s = "c " then "c" else s, false),
    fun s => (if s = "c " then "c" else s, false)⟩

/-- The reference ordering of the specification (§4.4 step 3): releases
with a date of byte length ≥ 4 come first; ties are broken by
lexicographic date, then lexicographic title, then lexicographic id.
`specReleaseLe a b` says `a` precedes or equals `b` in this order. -/
def specReleaseLe (a b : MusicBrainzRelease) : Bool :=
  let va := decide (4 ≤ a.date.utf8ByteSize)
  let vb := decide (4 ≤ b.date.utf8ByteSize)
  (va && !vb) ||
    (va == vb &&
      (decide (a.date < b.date) ||
        (a.date == b.date &&
          (decide (a.title < b.title) ||
            (a.title == b.title && decide (a.id ≤ b.id))))))

/-- The reference selector following the specification text (§4.4
steps 3–6): stably sort by `specReleaseLe`, then return the first sorted
release whose title differs from the recording title and whose country is
"XW" or "US"; failing that, the first whose title differs; failing that,
the first sorted release overall. -/
def selectBestReleaseSpec (releases : List MusicBrainzRelease) (recordingTitle : String) :
    Option MusicBrainzRelease :=
  let sorted := releases.mergeSort specReleaseLe
  match sorted.find? (fun r =>
      !(r.title == recordingTitle) && (r.country == "XW" || r.country == "US")) with
  | some r => some r
  | none =>
    match sorted.find? (fun r => !(r.title == recordingTitle)) with
    | some r => some r
    | none => sorted.head?

/-! ## Claim theorems -/

/-- C9: `GetBestRelease` returns `none` on the empty release list, and on
any singleton list `[r]` it returns `r` unconditionally, whatever `r`'s
fields and whatever the recording title. -/
theorem c9_selector_empty_none_singleton_unconditional
    (r : MusicBrainzRelease) (t : String) :
    (GetBestRelease [] t).1 = none ∧ (GetBestRelease [r] t).1 = some r :=
  ⟨rfl, rfl⟩

/-- C4 counterexample: `GetBestRelease` does not leave its input sequence
unchanged — on a two-element list whose dates are out of order, the
caller's slice holds the two releases swapped after the call. -/
theorem c4_selector_mutates_input_counterexample :
    (GetBestRelease
        [⟨"a", "Y", "", "2005", "DE", "", 0⟩, ⟨"b", "Y", "", "1990", "US", "", 0⟩] "X").2 ≠
      [⟨"a", "Y", "", "2005", "DE", "", 0⟩, ⟨"b", "Y", "", "1990", "US", "", 0⟩] := by
  simp [GetBestRelease, sortReleases, List.mergeSort, List.merge, releaseLess]
  decide

/-- C4 amended: `GetBestRelease` sorts its input slice in place, so after
the call the slice holds a permutation of the original elements (the
stable sorted order), in general not the original order; lists of length
at most one are left unchanged. -/
theorem c4_amended_selector_permutes_input
    (rs : List MusicBrainzRelease) (t : String) :
    ((GetBestRelease rs t).2).Perm rs ∧ (rs.length ≤ 1 → (GetBestRelease rs t).2 = rs) := by
  match rs with
  | [] => exact ⟨List.Perm.refl _, fun _ => rfl⟩
  | [r] => exact ⟨List.Perm.refl _, fun _ => rfl⟩
  | a :: b :: rest =>
    refine ⟨?_, ?_⟩
    · simpa [GetBestRelease, sortReleases] using
        List.mergeSort_perm (a :: b :: rest) (fun x y => !(releaseLess y x))
    · intro h
      simp at h

/-- C1: on a candidate whose ISRC list is empty, `HydrateTrack` does not
fall back to the input track's ISRC: it evaluates `firstResult.ISRCs[0]`
before the emptiness guard and panics (index out of range), so hydration
fails on this step. -/
theorem c1_empty_isrc_panics_instead_of_fallback :
    (HydrateTrack idCleaner emptyCache 3600 0
        (.response 200 (some [⟨"rec-1", "RecTitle", 100, [], [], [sampleRelease]⟩]))
        sampleTrack).1 = .error .panicIndexOutOfRange := by
  rfl

/-- C2: on a candidate whose release list is empty, `HydrateTrack` does
not fail with a `MissingRelease` error: `GetBestRelease` returns the nil
pointer and `HydrateTrack` dereferences it when building the enriched
record, so the call panics (nil-pointer dereference). -/
theorem c2_empty_releases_panics_no_missing_release_error :
    (HydrateTrack idCleaner emptyCache 3600 0
        (.response 200 (some [⟨"rec-1", "RecTitle", 100, ["ISRC1"], [], []⟩]))
        sampleTrack).1 = .error .panicNilDereference := by
  rfl

/-- C10: the results of the two cleaners are used only through their
string component; the error component is discarded, so two cleaners
returning the same strings but different errors give bitwise-identical
search behaviour — the caller cannot observe that cleaning failed, and
`SearchError` has no normalization-failure kind. -/
theorem c10_cleaner_errors_unobservable (c c' : MetadataCleaner)
    (hrec : ∀ s, (c.CleanRecording s).1 = (c'.CleanRecording s).1)
    (hart : ∀ s, (c.CleanArtist s).1 = (c'.CleanArtist s).1)
    (cache : String → Option cacheEntry) (ttl : Nat) (p : SearchParams) (now : Nat)
    (o : FetchOutcome) :
    SearchMusicBrainz c cache ttl p now o = SearchMusicBrainz c' cache ttl p now o := by
  have hcp : cleanParams c p = cleanParams c' p := by
    unfold cleanParams
    rw [hrec, hart]
  unfold SearchMusicBrainz
  rw [hcp]

/-- C10 witness: a cleaner that always errors behaves exactly like one
that never does. -/
theorem c10_witness :
    SearchMusicBrainz idCleaner emptyCache 3600 ⟨"t", "a", "r"⟩ 0
        (.response 200 (some [])) =
      SearchMusicBrainz errCleaner emptyCache 3600 ⟨"t", "a", "r"⟩ 0
        (.response 200 (some [])) :=
  c10_cleaner_errors_unobservable idCleaner errCleaner (fun _ => rfl) (fun _ => rfl)
    emptyCache 3600 ⟨"t", "a", "r"⟩ 0 (.response 200 (some []))

/-- The fetch path always calls `limiter.Wait`. -/
theorem fetchAndCache_limiterWaited (cache : String → Option cacheEntry)
    (ttl : Nat) (key query : String) (now : Nat) (o : FetchOutcome) :
    (fetchAndCache cache ttl key query now o).limiterWaited = true := by
  cases o with
  | waitErr => rfl
  | newRequestErr => rfl
  | doErr => rfl
  | response statusCode decoded =>
    by_cases hs : statusCode = 200
    · subst hs
      cases decoded with
      | none => rfl
      | some recs => rfl
    · simp [fetchAndCache, hs]

/-- On any failing outcome, the fetch path leaves the cache map intact
and returns an error. -/
theorem fetchAndCache_fail (cache : String → Option cacheEntry)
    (ttl : Nat) (key query : String) (now : Nat) (o : FetchOutcome)
    (hfail : o.isFailure = true) :
    (fetchAndCache cache ttl key query now o).cache = cache ∧
      ∃ e, (fetchAndCache cache ttl key query now o).result = Except.error e := by
  cases o with
  | waitErr => exact ⟨rfl, ⟨.limiterWait, rfl⟩⟩
  | newRequestErr => exact ⟨rfl, ⟨.newRequest, rfl⟩⟩
  | doErr => exact ⟨rfl, ⟨.doRequest, rfl⟩⟩
  | response statusCode decoded =>
    by_cases hs : statusCode = 200
    · subst hs
      cases decoded with
      | none => exact ⟨rfl, ⟨.decodeFail, rfl⟩⟩
      | some recs => simp [FetchOutcome.isFailure] at hfail
    · exact ⟨by simp [fetchAndCache, hs], ⟨.badStatus statusCode, by simp [fetchAndCache, hs]⟩⟩

/-- C6: when the rate-limiter wait, the request creation, the request
execution, the status check or the decode fails, the cache map after the
call equals the cache map before it at every key (failures are never
memoized, existing entries stay untouched), and if the fetch path was
entered at all the call returns an error. -/
theorem c6_failures_never_memoized (c : MetadataCleaner)
    (cache : String → Option cacheEntry) (ttl : Nat) (p : SearchParams) (now : Nat)
    (o : FetchOutcome) (hfail : o.isFailure = true) :
    (SearchMusicBrainz c cache ttl p now o).cache = cache ∧
      ((SearchMusicBrainz c cache ttl p now o).limiterWaited = true →
        ∃ e, (SearchMusicBrainz c cache ttl p now o).result = Except.error e) := by
  unfold SearchMusicBrainz
  split
  · exact ⟨rfl, fun h => Bool.noConfusion h⟩
  · split
    · split
      · exact ⟨rfl, fun h => Bool.noConfusion h⟩
      · exact ⟨(fetchAndCache_fail _ _ _ _ _ _ hfail).1,
          fun _ => (fetchAndCache_fail _ _ _ _ _ _ hfail).2⟩
    · exact ⟨(fetchAndCache_fail _ _ _ _ _ _ hfail).1,
        fun _ => (fetchAndCache_fail _ _ _ _ _ _ hfail).2⟩

/-- C6 witness: a decode failure at time 5 leaves the expired entry (and
every other key) untouched and returns an error. -/
theorem c6_witness :
    (FetchOutcome.response 200 none).isFailure = true ∧
      ((SearchMusicBrainz idCleaner expiredCache 3600 ⟨"t", "a", "r"⟩ 5
            (.response 200 none)).cache = expiredCache ∧
        ((SearchMusicBrainz idCleaner expiredCache 3600 ⟨"t", "a", "r"⟩ 5
              (.response 200 none)).limiterWaited = true →
          ∃ e, (SearchMusicBrainz idCleaner expiredCache 3600 ⟨"t", "a", "r"⟩ 5
              (.response 200 none)).result = Except.error e)) :=
  ⟨by decide,
    c6_failures_never_memoized idCleaner expiredCache 3600 ⟨"t", "a", "r"⟩ 5
      (.response 200 none) (by decide)⟩

/-- The fetch path reports the cache key it was given. -/
theorem fetchAndCache_usedCacheKey (cache : String → Option cacheEntry)
    (ttl : Nat) (key query : String) (now : Nat) (o : FetchOutcome) :
    (fetchAndCache cache ttl key query now o).usedCacheKey = some key := by
  cases o with
  | waitErr => rfl
  | newRequestErr => rfl
  | doErr => rfl
  | response statusCode decoded =>
    by_cases hs : statusCode = 200
    · subst hs
      cases decoded with
      | none => rfl
      | some recs => rfl
    · simp [fetchAndCache, hs]

/-- The fetch path reports the query string it was given. -/
theorem fetchAndCache_usedQuery (cache : String → Option cacheEntry)
    (ttl : Nat) (key query : String) (now : Nat) (o : FetchOutcome) :
    (fetchAndCache cache ttl key query now o).usedQuery = some query := by
  cases o with
  | waitErr => rfl
  | newRequestErr => rfl
  | doErr => rfl
  | response statusCode decoded =>
    by_cases hs : statusCode = 200
    · subst hs
      cases decoded with
      | none => rfl
      | some recs => rfl
    · simp [fetchAndCache, hs]

/-- C7: with valid parameters and a cache entry under the computed
fingerprint, if `now` is strictly before `expiresAt` the call returns the
cached recordings with no limiter wait, no HTTP request and an unchanged
cache; if the entry is expired (`expiresAt ≤ now`) the fetch path is
taken (the limiter is consumed), exactly as on a miss. -/
theorem c7_cache_hit_skips_network (c : MetadataCleaner)
    (cache : String → Option cacheEntry) (ttl : Nat) (p : SearchParams) (now : Nat)
    (o : FetchOutcome) (entry : cacheEntry)
    (hvalid : ¬(p.track = "" ∧ p.artist = "" ∧ p.release = ""))
    (hentry : cache (generateCacheKey (cleanParams c p)) = some entry) :
    (now < entry.expiresAt →
      SearchMusicBrainz c cache ttl p now o =
        ⟨.ok entry.recordings, cache, false, false,
          some (generateCacheKey (cleanParams c p)), none⟩) ∧
    (entry.expiresAt ≤ now →
      (SearchMusicBrainz c cache ttl p now o).limiterWaited = true) := by
  constructor
  · intro hlt
    simp only [SearchMusicBrainz, if_neg hvalid, hentry, if_pos hlt]
  · intro hge
    have hnlt : ¬ now < entry.expiresAt := not_lt.mpr hge
    simp only [SearchMusicBrainz, if_neg hvalid, hentry, if_neg hnlt]
    exact fetchAndCache_limiterWaited _ _ _ _ _ _

/-- C7 witness: at time 0 a hit on the unexpired entry returns the cached
(empty) recordings with no limiter wait and no request, even though the
environment would fail the limiter wait. -/
theorem c7_witness :
    SearchMusicBrainz idCleaner freshCache 3600 ⟨"t", "a", "r"⟩ 0 .waitErr =
      ⟨.ok [], freshCache, false, false,
        some (generateCacheKey (cleanParams idCleaner ⟨"t", "a", "r"⟩)), none⟩ :=
  (c7_cache_hit_skips_network idCleaner freshCache 3600 ⟨"t", "a", "r"⟩ 0 .waitErr ⟨[], 100⟩
      (by decide) rfl).1 (by decide)

/-- C3 counterexample: two searches whose three cleaned fields coincide
(the raw release values `"c "` and `"c"` clean to the same string) use
different cache fingerprints and different catalog queries — the
fingerprint and query depend on the raw release value, so the release
field is not normalized before use. -/
theorem c3_release_not_cleaned_counterexample :
    (trimCleaner.CleanRecording "c ").1 = (trimCleaner.CleanRecording "c").1 ∧
      (trimCleaner.CleanArtist "c ").1 = (trimCleaner.CleanArtist "c").1 ∧
      (SearchMusicBrainz trimCleaner emptyCache 3600 ⟨"t", "a", "c "⟩ 0
          (.response 200 (some []))).usedCacheKey ≠
        (SearchMusicBrainz trimCleaner emptyCache 3600 ⟨"t", "a", "c"⟩ 0
          (.response 200 (some []))).usedCacheKey ∧
      (SearchMusicBrainz trimCleaner emptyCache 3600 ⟨"t", "a", "c "⟩ 0
          (.response 200 (some []))).usedQuery ≠
        (SearchMusicBrainz trimCleaner emptyCache 3600 ⟨"t", "a", "c"⟩ 0
          (.response 200 (some []))).usedQuery := by
  refine ⟨rfl, rfl, ?_, ?_⟩ <;> decide

/-- C3 amended: for valid parameters, the fingerprint and (when the fetch
path is taken) the query are functions of the cleaned track, the cleaned
artist and the RAW release field: the release value is used without
normalization. -/
theorem c3_amended_track_artist_cleaned_release_raw (c : MetadataCleaner)
    (cache : String → Option cacheEntry) (ttl : Nat) (p : SearchParams) (now : Nat)
    (o : FetchOutcome) (hvalid : ¬(p.track = "" ∧ p.artist = "" ∧ p.release = "")) :
    (SearchMusicBrainz c cache ttl p now o).usedCacheKey =
      some (generateCacheKey
        ⟨(c.CleanRecording p.track).1, (c.CleanArtist p.artist).1, p.release⟩) ∧
    ∀ q, (SearchMusicBrainz c cache ttl p now o).usedQuery = some q →
      q = buildQuery
        ⟨(c.CleanRecording p.track).1, (c.CleanArtist p.artist).1, p.release⟩ := by
  unfold SearchMusicBrainz
  rw [if_neg hvalid]
  cases hc : cache (generateCacheKey (cleanParams c p)) with
  | none =>
    refine ⟨fetchAndCache_usedCacheKey _ _ _ _ _ _, ?_⟩
    intro q hq
    rw [fetchAndCache_usedQuery] at hq
    exact (Option.some.injEq _ _ ▸ hq).symm
  | some entry =>
    dsimp only
    by_cases hlt : now < entry.expiresAt
    · rw [if_pos hlt]
      exact ⟨rfl, fun q hq => Option.noConfusion hq⟩
    · rw [if_neg hlt]
      refine ⟨fetchAndCache_usedCacheKey _ _ _ _ _ _, ?_⟩
      intro q hq
      rw [fetchAndCache_usedQuery] at hq
      exact (Option.some.injEq _ _ ▸ hq).symm

/-- C3 amended witness: concrete instance of the key/query computation. -/
theorem c3_amended_witness :
    (SearchMusicBrainz trimCleaner emptyCache 3600 ⟨"c ", "c ", "c "⟩ 0
        (.response 200 (some []))).usedCacheKey =
      some (generateCacheKey
        ⟨(trimCleaner.CleanRecording "c ").1, (trimCleaner.CleanArtist "c ").1, "c "⟩) ∧
    ∀ q, (SearchMusicBrainz trimCleaner emptyCache 3600 ⟨"c ", "c ", "c "⟩ 0
        (.response 200 (some []))).usedQuery = some q →
      q = buildQuery
        ⟨(trimCleaner.CleanRecording "c ").1, (trimCleaner.CleanArtist "c ").1, "c "⟩ :=
  c3_amended_track_artist_cleaned_release_raw trimCleaner emptyCache 3600
    ⟨"c ", "c ", "c "⟩ 0 (.response 200 (some [])) (by decide)

/-- Two strings with the same character data are equal. -/
theorem string_data_inj {x y : String} (h : x.data = y.data) : x = y :=
  congrArg String.mk h

/-- The non-strict order used by the embedded `sort.SliceStable` call
(`le a b := not (releaseLess b a)`) coincides pointwise with the
specification's key order `specReleaseLe`. -/
theorem releaseLe_eq_spec (a b : MusicBrainzRelease) :
    (!(releaseLess b a)) = specReleaseLe a b := by
  unfold releaseLess specReleaseLe
  by_cases hva : 4 ≤ a.date.utf8ByteSize <;> by_cases hvb : 4 ≤ b.date.utf8ByteSize <;>
    simp [hva, hvb]
  all_goals (
    by_cases hd : b.date = a.date
    · by_cases ht : b.title = a.title
      · simp only [hd, ht, if_true, lt_self_iff_false, decide_False, Bool.not_false,
          Bool.true_and, beq_self_eq_true, Bool.not_true, Bool.false_or]
        rw [Bool.eq_iff_iff]
        simp only [decide_eq_true_eq, Bool.not_eq_true', decide_eq_false_iff_not]
        exact not_le.symm
      · have hbeq : (a.title == b.title) = false :=
          beq_eq_false_iff_ne.mpr fun h => ht h.symm
        have hne : b.title.data ≠ a.title.data := fun h => ht (string_data_inj h)
        simp only [hd, ht, if_true, if_false, lt_self_iff_false, decide_False,
          Bool.not_false, Bool.true_and, beq_self_eq_true, Bool.not_true, Bool.false_or,
          hbeq, Bool.or_true, Bool.true_or, Bool.and_true]
        rw [Bool.eq_iff_iff]
        simp only [decide_eq_true_eq, Bool.not_eq_true', decide_eq_false_iff_not]
        constructor
        · exact fun h => asymm h
        · exact fun h => lt_of_le_of_ne (le_of_not_lt h) hne
    · have hbeq : (a.date == b.date) = false :=
        beq_eq_false_iff_ne.mpr fun h => hd h.symm
      have hne : b.date.data ≠ a.date.data := fun h => hd (string_data_inj h)
      simp only [hd, if_false, hbeq, Bool.not_false, Bool.true_or, Bool.and_true]
      rw [Bool.eq_iff_iff]
      simp only [decide_eq_true_eq, Bool.not_eq_true', decide_eq_false_iff_not]
      constructor
      · exact fun h => asymm h
      · exact fun h => lt_of_le_of_ne (le_of_not_lt h) hne)

/-- C5: for every release list of length at least 2 and every recording
title, the embedded `GetBestRelease` returns exactly what the
specification's reference algorithm returns: stable sort by
valid-date-first / date / title / id, then the cascade of country-and-
title scan, title-only scan, first-overall fallback, all over the one
sorted sequence. -/
theorem c5_selector_matches_reference (rs : List MusicBrainzRelease) (t : String)
    (h : 2 ≤ rs.length) :
    (GetBestRelease rs t).1 = selectBestReleaseSpec rs t := by
  match rs with
  | a :: b :: rest =>
    have hsort : sortReleases (a :: b :: rest) = (a :: b :: rest).mergeSort specReleaseLe := by
      unfold sortReleases
      congr 1
      funext x y
      exact releaseLe_eq_spec x y
    have hpred : (fun r : MusicBrainzRelease =>
        (r.country == "XW" || r.country == "US") && !(r.title == t)) =
        (fun r => !(r.title == t) && (r.country == "XW" || r.country == "US")) := by
      funext r
      exact Bool.and_comm _ _
    unfold GetBestRelease selectBestReleaseSpec
    dsimp only
    rw [hsort, hpred]

/-- C5 witness: the two-release example of spec §8 (country preference),
where the code and the reference algorithm agree on release "b". -/
theorem c5_witness :
    2 ≤ ([⟨"a", "Y", "", "2005", "DE", "", 0⟩,
          ⟨"b", "Y", "", "1990", "US", "", 0⟩] : List MusicBrainzRelease).length ∧
      (GetBestRelease
          [⟨"a", "Y", "", "2005", "DE", "", 0⟩, ⟨"b", "Y", "", "1990", "US", "", 0⟩] "X").1 =
        selectBestReleaseSpec
          [⟨"a", "Y", "", "2005", "DE", "", 0⟩, ⟨"b", "Y", "", "1990", "US", "", 0⟩] "X" :=
  ⟨by decide,
    c5_selector_matches_reference
      [⟨"a", "Y", "", "2005", "DE", "", 0⟩, ⟨"b", "Y", "", "1990", "US", "", 0⟩] "X"
      (by decide)⟩

theorem isValidChar_of_small {n : Nat} (h : n < 0xD800) : n.isValidChar := Or.inl h

theorem toNat_charOfNat_of_valid {n : Nat} (hv : n.isValidChar) : (Char.ofNat n).toNat = n := by
  unfold Char.ofNat
  rw [dif_pos hv]
  rfl

theorem char_toNat_lt (c : Char) : c.toNat < 0x110000 := by
  rcases c.valid with h | h
  · exact Nat.lt_trans h (by norm_num)
  · exact h.2

theorem utf8EncodeChar_ne_nil (c : Char) : utf8EncodeChar c ≠ [] := by
  dsimp only [utf8EncodeChar]
  split
  · simp
  · split
    · simp
    · split
      · simp
      · simp

theorem mem_utf8EncodeChar_lt (c : Char) : ∀ x ∈ utf8EncodeChar c, x < 256 := by
  intro x hx
  have hc := char_toNat_lt c
  dsimp only [utf8EncodeChar] at hx
  split at hx
  · simp at hx; omega
  · split at hx
    · simp at hx; rcases hx with h | h <;> omega
    · split at hx
      · simp at hx; rcases hx with h | h | h <;> omega
      · simp at hx; rcases hx with h | h | h | h <;> omega

theorem utf8EncodeChar_pf {c d : Char} {l1 l2 : List Nat}
    (h : utf8EncodeChar c ++ l1 = utf8EncodeChar d ++ l2) : c = d := by
  have hc := char_toNat_lt c
  have hd := char_toNat_lt d
  have heq : c.toNat = d.toNat := by
    dsimp only [utf8EncodeChar] at h
    repeat' split at h
    all_goals (simp at h; omega)
  calc c = Char.ofNat c.toNat := (Char.ofNat_toNat c).symm
    _ = Char.ofNat d.toNat := by rw [heq]
    _ = d := Char.ofNat_toNat d

theorem escapeByte_ne_nil (b : Nat) : escapeByte b ≠ [] := by
  unfold escapeByte
  split
  · simp
  · split
    · simp
    · simp

theorem upperHexDigit_inj {m n : Nat} (hm : m < 16) (hn : n < 16)
    (h : upperHexDigit m = upperHexDigit n) : m = n := by
  have h2 := congrArg Char.toNat h
  unfold upperHexDigit at h2
  split at h2 <;> split at h2 <;>
    rw [toNat_charOfNat_of_valid (isValidChar_of_small (by omega)),
      toNat_charOfNat_of_valid (isValidChar_of_small (by omega))] at h2 <;>
    omega

theorem escapeByte_cases (b : Nat) :
    (b = 0x20 ∧ escapeByte b = ['+']) ∨
      (b ≠ 0x20 ∧ isUnreservedByte b = true ∧ escapeByte b = [Char.ofNat b]) ∨
      (b ≠ 0x20 ∧ isUnreservedByte b = false ∧
        escapeByte b = ['%', upperHexDigit (b / 16), upperHexDigit (b % 16)]) := by
  unfold escapeByte
  by_cases h1 : b = 0x20
  · subst h1; simp
  · cases h2 : isUnreservedByte b
    · right; right
      refine ⟨h1, rfl, ?_⟩
      rw [if_neg (by simpa using h1), if_neg (by simp [h2])]
    · right; left
      refine ⟨h1, rfl, ?_⟩
      rw [if_neg (by simpa using h1), if_pos (by simp [h2])]

theorem toNat_charOfNat_of_byte {n : Nat} (h : n < 256) : (Char.ofNat n).toNat = n :=
  toNat_charOfNat_of_valid (isValidChar_of_small (by omega))

theorem escapeByte_pf {a b : Nat} (ha : a < 256) (hb : b < 256) {l1 l2 : List Char}
    (h : escapeByte a ++ l1 = escapeByte b ++ l2) : a = b := by
  rcases escapeByte_cases a with ⟨ha1, ha2⟩ | ⟨ha1, hau, ha2⟩ | ⟨ha1, hau, ha2⟩ <;>
    rcases escapeByte_cases b with ⟨hb1, hb2⟩ | ⟨hb1, hbu, hb2⟩ | ⟨hb1, hbu, hb2⟩ <;>
      rw [ha2, hb2] at h <;>
        simp only [List.cons_append, List.nil_append, List.cons.injEq] at h
  · omega
  · have h2 := congrArg Char.toNat h.1
    rw [toNat_charOfNat_of_byte hb] at h2
    have hb43 : b = 43 := by
      have h3 : ('+' : Char).toNat = 43 := rfl
      omega
    rw [hb43] at hbu
    exact absurd hbu (by decide)
  · exact absurd h.1 (by decide)
  · have h2 := congrArg Char.toNat h.1
    rw [toNat_charOfNat_of_byte ha] at h2
    have ha43 : a = 43 := by
      have h3 : ('+' : Char).toNat = 43 := rfl
      omega
    rw [ha43] at hau
    exact absurd hau (by decide)
  · have h2 := congrArg Char.toNat h.1
    rw [toNat_charOfNat_of_byte ha, toNat_charOfNat_of_byte hb] at h2
    exact h2
  · have h2 := congrArg Char.toNat h.1
    rw [toNat_charOfNat_of_byte ha] at h2
    have ha37 : a = 37 := by
      have h3 : ('%' : Char).toNat = 37 := rfl
      omega
    rw [ha37] at hau
    exact absurd hau (by decide)
  · exact absurd h.1 (by decide)
  · have h2 := congrArg Char.toNat h.1
    rw [toNat_charOfNat_of_byte hb] at h2
    have hb37 : b = 37 := by
      have h3 : ('%' : Char).toNat = 37 := rfl
      omega
    rw [hb37] at hbu
    exact absurd hbu (by decide)
  · have hhi := upperHexDigit_inj (Nat.div_lt_of_lt_mul (by omega))
      (Nat.div_lt_of_lt_mul (by omega)) h.2.1
    have hlo := upperHexDigit_inj (Nat.mod_lt _ (by omega))
      (Nat.mod_lt _ (by omega)) h.2.2.1
    omega

theorem flatMap_inj_on {α β : Type} (P : α → Prop) (f : α → List β)
    (hne : ∀ a, P a → f a ≠ [])
    (hpf : ∀ a b l1 l2, P a → P b → f a ++ l1 = f b ++ l2 → a = b) :
    ∀ xs ys : List α, (∀ a ∈ xs, P a) → (∀ a ∈ ys, P a) →
      xs.flatMap f = ys.flatMap f → xs = ys := by
  intro xs
  induction xs with
  | nil =>
    intro ys _ hys h
    cases ys with
    | nil => rfl
    | cons y ys =>
      rw [List.flatMap_nil, List.flatMap_cons] at h
      exact absurd (List.append_eq_nil.mp h.symm).1 (hne y (hys y (by simp)))
  | cons x xs ih =>
    intro ys hxs hys h
    cases ys with
    | nil =>
      rw [List.flatMap_nil, List.flatMap_cons] at h
      exact absurd (List.append_eq_nil.mp h).1 (hne x (hxs x (by simp)))
    | cons y ys =>
      rw [List.flatMap_cons, List.flatMap_cons] at h
      have hxy : x = y :=
        hpf x y _ _ (hxs x (by simp)) (hys y (by simp)) h
      subst hxy
      have h2 : xs.flatMap f = ys.flatMap f := List.append_cancel_left h
      rw [ih ys (fun a ha => hxs a (by simp [ha])) (fun a ha => hys a (by simp [ha])) h2]

theorem queryEscape_inj {s t : String} (h : queryEscape s = queryEscape t) : s = t := by
  unfold queryEscape at h
  have hdata : (s.data.flatMap utf8EncodeChar).flatMap escapeByte =
      (t.data.flatMap utf8EncodeChar).flatMap escapeByte := congrArg String.data h
  have hbytes : s.data.flatMap utf8EncodeChar = t.data.flatMap utf8EncodeChar := by
    refine flatMap_inj_on (fun b => b < 256) escapeByte
      (fun b _ => escapeByte_ne_nil b)
      (fun a b l1 l2 pa pb hh => escapeByte_pf pa pb hh) _ _ ?_ ?_ hdata
    · intro a hamem
      rcases List.mem_flatMap.mp hamem with ⟨c, _, hc⟩
      exact mem_utf8EncodeChar_lt c a hc
    · intro a hamem
      rcases List.mem_flatMap.mp hamem with ⟨c, _, hc⟩
      exact mem_utf8EncodeChar_lt c a hc
  have hchars : s.data = t.data :=
    flatMap_inj_on (fun _ => True) utf8EncodeChar
      (fun c _ => utf8EncodeChar_ne_nil c)
      (fun a b l1 l2 _ _ hh => utf8EncodeChar_pf hh) _ _
      (fun _ _ => trivial) (fun _ _ => trivial) hbytes
  exact string_data_inj hchars

theorem amp_ne_upperHexDigit {m : Nat} (hm : m < 16) : ('&' : Char) ≠ upperHexDigit m := by
  intro hc
  have h2 := congrArg Char.toNat hc
  have h38 : ('&' : Char).toNat = 38 := rfl
  rw [h38] at h2
  unfold upperHexDigit at h2
  split at h2
  · rw [toNat_charOfNat_of_valid (isValidChar_of_small
      (show 0x30 + m < 0xD800 by omega))] at h2
    omega
  · rw [toNat_charOfNat_of_valid (isValidChar_of_small
      (show 0x41 + (m - 10) < 0xD800 by omega))] at h2
    omega

theorem amp_not_mem_escapeByte {b : Nat} (hb : b < 256) :
    ('&' : Char) ∉ escapeByte b := by
  rcases escapeByte_cases b with ⟨h1, h2⟩ | ⟨h1, hu, h2⟩ | ⟨h1, hu, h2⟩ <;> rw [h2]
  · decide
  · simp only [List.mem_singleton]
    intro hc
    have h3 := congrArg Char.toNat hc
    rw [toNat_charOfNat_of_byte hb] at h3
    have h38 : ('&' : Char).toNat = 38 := rfl
    have hb38 : b = 38 := by omega
    rw [hb38] at hu
    exact absurd hu (by decide)
  · have hdiv : b / 16 < 16 := by omega
    have hmod : b % 16 < 16 := by omega
    simp only [List.mem_cons, List.not_mem_nil, or_false]
    rintro (hc | hc | hc)
    · exact absurd hc (by decide)
    · exact amp_ne_upperHexDigit hdiv hc
    · exact amp_ne_upperHexDigit hmod hc

theorem amp_not_mem_queryEscape (s : String) :
    ('&' : Char) ∉ (queryEscape s).data := by
  intro hmem
  rcases List.mem_flatMap.mp hmem with ⟨b, hbmem, hb⟩
  have hb256 : b < 256 := by
    rcases List.mem_flatMap.mp hbmem with ⟨c, _, hc⟩
    exact mem_utf8EncodeChar_lt c b hc
  exact amp_not_mem_escapeByte hb256 hb

theorem split_at_sep {α : Type} (sep : α) :
    ∀ (a a' b b' : List α), sep ∉ a → sep ∉ a' →
      a ++ sep :: b = a' ++ sep :: b' → a = a' ∧ b = b' := by
  intro a
  induction a with
  | nil =>
    intro a' b b' _ hna' h
    cases a' with
    | nil => simpa using h
    | cons x a' =>
      simp only [List.nil_append, List.cons_append, List.cons.injEq] at h
      exact absurd (by rw [h.1]; exact List.mem_cons_self _ _) hna'
  | cons x a ih =>
    intro a' b b' hna hna' h
    cases a' with
    | nil =>
      simp only [List.nil_append, List.cons_append, List.cons.injEq] at h
      exact absurd (by rw [← h.1]; exact List.mem_cons_self _ _) hna
    | cons y a' =>
      simp only [List.cons_append, List.cons.injEq] at h
      obtain ⟨hxy, h2⟩ := h
      obtain ⟨h3, h4⟩ := ih a' b b'
        (fun hm => hna (List.mem_cons_of_mem _ hm))
        (fun hm => hna' (List.mem_cons_of_mem _ hm)) h2
      exact ⟨by rw [hxy, h3], h4⟩

theorem generateCacheKey_data (r : SearchParams) :
    (generateCacheKey r).data =
      (("track=" : String).data ++ (queryEscape r.track).data) ++ '&' ::
        ((("artist=" : String).data ++ (queryEscape r.artist).data) ++ '&' ::
          (("release=" : String).data ++ (queryEscape r.release).data)) := by
  have h1 : ("&artist=" : String).data = '&' :: ("artist=" : String).data := rfl
  have h2 : ("&release=" : String).data = '&' :: ("release=" : String).data := rfl
  simp only [generateCacheKey, String.data_append, h1, h2, List.append_assoc,
    List.cons_append]

theorem amp_not_mem_key_segment (lit : String) (hlit : ('&' : Char) ∉ lit.data)
    (s : String) : ('&' : Char) ∉ lit.data ++ (queryEscape s).data := by
  intro hm
  rcases List.mem_append.mp hm with h | h
  · exact hlit h
  · exact amp_not_mem_queryEscape s h

/-- C8: the fingerprint is a deterministic and collision-free function of
the parameter triple: two `SearchParams` have equal `generateCacheKey`
exactly when their track, artist and release fields are all equal, for
arbitrary field values (including values containing the separator
characters `&` and `=`, which `url.QueryEscape` escapes). -/
theorem c8_generateCacheKey_injective (p q : SearchParams) :
    generateCacheKey p = generateCacheKey q ↔
      p.track = q.track ∧ p.artist = q.artist ∧ p.release = q.release := by
  constructor
  · intro h
    have hdata := congrArg String.data h
    rw [generateCacheKey_data, generateCacheKey_data] at hdata
    obtain ⟨hA, hB⟩ := split_at_sep '&' _ _ _ _
      (amp_not_mem_key_segment "track=" (by decide) _)
      (amp_not_mem_key_segment "track=" (by decide) _) hdata
    obtain ⟨hC, hD⟩ := split_at_sep '&' _ _ _ _
      (amp_not_mem_key_segment "artist=" (by decide) _)
      (amp_not_mem_key_segment "artist=" (by decide) _) hB
    refine ⟨?_, ?_, ?_⟩
    · exact queryEscape_inj (string_data_inj (List.append_cancel_left hA))
    · exact queryEscape_inj (string_data_inj (List.append_cancel_left hC))
    · exact queryEscape_inj (string_data_inj (List.append_cancel_left hD))
  · intro h
    obtain ⟨h1, h2, h3⟩ := h
    unfold generateCacheKey
    rw [h1, h2, h3]

end Piper
